import Mathlib

/-!
Verification of `lib/ansible/module_utils/eos_local.py` (EOS device-management
client): the command classifier, the eAPI response batcher, the transport
adapters and the transactional configuration loader.

The Python source is shallowly embedded below.  Python strings become `String`
(a Python string is its sequence of characters, so `str.endswith` becomes a
character-suffix test), JSON values become `JVal`, exceptions and
`module.fail_json` (which terminates the process) become the `Except PErr`
error monad, and the two external collaborators — the HTTP endpoint reached
through `fetch_url` and the interactive shell reached through `exec_command` —
become explicit oracle functions supplied to each operation.
-/

/-- Errors a Python run of the embedded code can surface: the built-in
exceptions that the code can raise, plus `module.fail_json`, which aborts the
whole module run (optionally with a device error `code` for the eAPI
transport). -/
inductive PErr where
  | nameError : String → PErr
  | attributeError : String → PErr
  | keyError : String → PErr
  | indexError : PErr
  | typeError : PErr
  | failJson : String → PErr
  | failJsonCode : String → Int → PErr
deriving Repr, DecidableEq

/-- A JSON-like Python value, as handled by `module.from_json` and carried in
eAPI results. -/
inductive JVal where
  | str : String → JVal
  | num : Int → JVal
  | bool : Bool → JVal
  | null : JVal
  | arr : List JVal → JVal
  | obj : List (String × JVal) → JVal

/-- Python subscripting `v[k]` on a JSON value: field lookup on a mapping,
KeyError when the key is absent, TypeError when the value is not a mapping. -/
def JVal.getItem : JVal → String → Except PErr JVal
  | .obj fields, k =>
    match fields.lookup k with
    | some v => .ok v
    | none => .error (.keyError k)
  | _, _ => .error .typeError

/-- Translation of Python `s.endswith(t)`: the character sequence of `t` is a
suffix of the character sequence of `s`. -/
def pyEndsWith (s t : String) : Bool := t.data.isSuffixOf s.data

/-- Source line 431: `is_json = lambda x: str(x).endswith('| json')`. -/
def is_json (x : String) : Bool := pyEndsWith x "| json"

/-- Source line 432: `is_text = lambda x: not str(x).endswith('| json')`. -/
def is_text (x : String) : Bool := !(pyEndsWith x "| json")

/-- The names bound at module level in `eos_local.py`: the imports of lines
30-39 and the definitions of lines 41-444.  Python resolves a bare name inside
a method body against this list (then builtins); in particular the method
names of `Cli` and `Eapi` are NOT in scope as bare names. -/
def moduleGlobals : List String :=
  ["re", "time", "CliBase", "env_fallback", "get_exception", "to_list",
   "Command", "iteritems", "NetworkError", "fetch_url", "_DEVICE_CONNECTION",
   "eos_local_argument_spec", "check_args", "load_params", "get_connection",
   "Cli", "Eapi", "is_json", "is_text", "get_config", "run_commands",
   "load_config"]

/-- Evaluating a bare name that is bound neither locally nor at module level
raises NameError.  The hypothesis certifies, against the transcribed global
table, that the name is indeed unbound. -/
def globalNameError {α : Type} (n : String) (h : moduleGlobals.contains n = false) :
    Except PErr α :=
  .error (.nameError n)

/-- The instance attributes `Eapi.__init__` (source lines 259-285) assigns on
`self`: `_module`, `_enable`, `_session_support`, `_device_config`, `_url`.
No other attribute is ever written to an `Eapi` instance. -/
def eapiInstanceAttrs : List String :=
  ["_module", "_enable", "_session_support", "_device_config", "_url"]

/-- Reading an instance attribute that was never assigned raises
AttributeError.  The hypothesis certifies the attribute is indeed absent. -/
def eapiAttrError {α : Type} (n : String) (h : eapiInstanceAttrs.contains n = false) :
    Except PErr α :=
  .error (.attributeError n)

/-- Connection parameters consumed by the adapters, resolved by the external
configuration layer before the core runs (source lines 43-60).  `port` and
`auth_pass` keep Python truthiness: `None` or `0` / the empty string are
falsy. -/
structure ModuleParams where
  host : String
  port : Option Nat
  username : String
  password : String
  auth_pass : Option String
  use_ssl : Bool
  timeout : Option Nat

/-- The value of `self._enable` on the eAPI adapter: Python `None`, the
credential dict built from `auth_pass`, or the bare string marker. -/
inductive EnableAttr where
  | none : EnableAttr
  | cred : String → String → EnableAttr
  | str : String → EnableAttr

/-- Python truthiness of `self._enable`: `None` is falsy, a non-empty dict is
truthy, a string is truthy when non-empty. -/
def EnableAttr.truthy : EnableAttr → Bool
  | .none => false
  | .cred _ _ => true
  | .str s => !(s == "")

/-- The JSON-RPC request `_request_builder` assembles (source lines 287-289),
posted by `fetch_url`: constant `jsonrpc`/`method` fields plus the command
batch and its uniform output format. -/
structure RpcRequest where
  jsonrpc : String
  id : Option Nat
  method : String
  version : Nat
  cmds : List String
  format : Option String

/-- The `error` object of a JSON-RPC failure response. -/
structure RpcError where
  code : Int
  message : String

/-- A decoded JSON-RPC response body: presence of the `error` / `result` keys
models Python's `'error' in response` / `'result' in response`. -/
structure RpcResponse where
  error : Option RpcError
  result : Option (List JVal)

/-- What the external HTTP endpoint gives back for one `fetch_url` call: the
HTTP status and, when the body parses (`module.from_json` succeeding), the
decoded response. -/
structure DevReply where
  status : Nat
  parsed : Option RpcResponse

/-- The eAPI device endpoint, as an oracle from request to reply. -/
abbrev Device := RpcRequest → DevReply

/-- The mutable state of an `Eapi` adapter instance.  Field names mirror the
source attributes `_enable`, `_session_support`, `_device_config`, `_url`
(note: `__init__` line 263 spells the cache `_device_config`, with no trailing
`s`). -/
structure Eapi where
  enable : EnableAttr
  session_support : Option Bool
  device_config : List (String × String)
  url : String

/-- Python truthiness of the `port` parameter: `if not port: port = default`
replaces both `None` and `0`. -/
def portOrDefault (port : Option Nat) (dflt : Nat) : Nat :=
  match port with
  | Option.none => dflt
  | some 0 => dflt
  | some p => p

/-- Source `Eapi.__init__` lines 259-285: always sets `_enable` — to the
credential dict when `auth_pass` is truthy and to the string marker otherwise
— and builds the command-api URL from `use_ssl`, `host` and `port`. -/
def Eapi.init (params : ModuleParams) : Eapi :=
  let proto := if params.use_ssl then "https" else "http"
  let port := if params.use_ssl then portOrDefault params.port 443
              else portOrDefault params.port 80
  let enable := match params.auth_pass with
    | some s => if s == "" then EnableAttr.str "enable" else EnableAttr.cred "enable" s
    | Option.none => EnableAttr.str "enable"
  ⟨enable, Option.none, [],
   proto ++ "://" ++ params.host ++ ":" ++ toString port ++ "/command-api"⟩

/-- Source `Eapi._request_builder` lines 287-289. -/
def Eapi.request_builder (commands : List String) (output : Option String)
    (reqid : Option Nat) : RpcRequest :=
  ⟨"2.0", reqid, "runCmds", 1, commands, output⟩

/-- The request one `Eapi.send_request` call posts (source lines 291-306):
because `_enable` is always truthy after `__init__`, the literal string
`'enable'` is inserted ahead of the batch. -/
def Eapi.send_request_req (e : Eapi) (commands : List String) (output : Option String) :
    RpcRequest :=
  Eapi.request_builder
    (if e.enable.truthy then "enable" :: commands else commands) output Option.none

/-- Source `Eapi.send_request` lines 291-320: posts the request, fails on a
non-200 status or an unparseable body, and — `_enable` being truthy — pops the
placeholder result of the injected `enable` command when the response carries
a `result` list (`list.pop(0)` on an empty list raises IndexError). -/
def Eapi.send_request (e : Eapi) (dev : Device) (commands : List String)
    (output : Option String) : Except PErr RpcResponse :=
  let reply := dev (Eapi.send_request_req e commands output)
  if reply.status != 200 then
    .error (.failJson "non-200 http status")
  else
    match reply.parsed with
    | Option.none => .error (.failJson "unable to load response from device")
    | some response =>
      if e.enable.truthy then
        match response.result with
        | Option.none => .ok response
        | some [] => .error .indexError
        | some (_ :: rest) => .ok ⟨response.error, some rest⟩
      else .ok response

/-- The local `_send` of `Eapi.run_commands` (source lines 329-334): issues
one request; a response carrying an `error` object aborts the whole module run
with the device-reported message and code, otherwise the `result` list is
returned. -/
def Eapi.sendBatchResult (e : Eapi) (dev : Device) (queue : List String)
    (output : Option String) : Except PErr (List JVal) :=
  match Eapi.send_request e dev queue output with
  | .error pe => .error pe
  | .ok response =>
    match response.error with
    | some err => .error (.failJsonCode err.message err.code)
    | Option.none =>
      match response.result with
      | some r => .ok r
      | Option.none => .error (.keyError "result")

/-- Shorthand for the output-format strings `'json'` / `'text'`. -/
def fmtStr (b : Bool) : String := if b then "json" else "text"

/-- The batching loop of `Eapi.run_commands` (source lines 325-349): scan the
commands left to right with the pending `queue` and its `output` format; when
the next command's format differs, flush the queue as one request; flush the
remainder at the end.  Besides the Python result list the embedding also
returns the trace of requests issued (one per `_send`, i.e. per `fetch_url`
post), accumulated head-first and reversed on exit. -/
def Eapi.runLoop (e : Eapi) (dev : Device) :
    List String → Option String → List String → List JVal → List RpcRequest →
    Except PErr (List JVal) × List RpcRequest
  | [], output, queue, responses, trace =>
    if queue.isEmpty then (.ok responses, trace.reverse)
    else
      match Eapi.sendBatchResult e dev queue output with
      | .error pe => (.error pe, (Eapi.send_request_req e queue output :: trace).reverse)
      | .ok r => (.ok (responses ++ r), (Eapi.send_request_req e queue output :: trace).reverse)
  | item :: rest, output, queue, responses, trace =>
    if (output == some "json" && is_text item) || (output == some "text" && is_json item) then
      match Eapi.sendBatchResult e dev queue output with
      | .error pe => (.error pe, (Eapi.send_request_req e queue output :: trace).reverse)
      | .ok r =>
        Eapi.runLoop e dev rest (some (fmtStr (is_json item))) [item] (responses ++ r)
          (Eapi.send_request_req e queue output :: trace)
    else
      Eapi.runLoop e dev rest (some (fmtStr (is_json item))) (queue ++ [item]) responses trace

/-- The post-processing loop of `Eapi.run_commands` (source lines 351-354):
for every command tagged text, replace `responses[index]` by
`responses[index]['output'].strip()`; structured results are left untouched. -/
def postLoop : List String → Nat → List JVal → Except PErr (List JVal)
  | [], _, responses => .ok responses
  | item :: rest, idx, responses =>
    if is_text item then
      match responses[idx]? with
      | Option.none => .error .indexError
      | some v =>
        match JVal.getItem v "output" with
        | .error pe => .error pe
        | .ok (.str s) => postLoop rest (idx + 1) (responses.set idx (.str s.trim))
        | .ok _ => .error (.attributeError "strip")
    else postLoop rest (idx + 1) responses

/-- Source `Eapi.run_commands` lines 322-355: the batching loop followed by
the text post-processing pass.  Returns the Python result together with the
trace of issued requests. -/
def Eapi.run_commands (e : Eapi) (dev : Device) (commands : List String) :
    Except PErr (List JVal) × List RpcRequest :=
  match Eapi.runLoop e dev commands Option.none [] [] [] with
  | (.error pe, trace) => (.error pe, trace)
  | (.ok responses, trace) =>
    match postLoop commands 0 responses with
    | .ok r => (.ok r, trace)
    | .error pe => (.error pe, trace)

/-- Source `Eapi.get_config` lines 357-370.  The body is

  cmd = 'show running-config ' + ' '.join(flags); cmd = cmd.strip()
  try: return self._device_configs[cmd]
  except KeyError:
    out = self.send_request(cmd)
    cfg = str(out['result'][0]['output']).strip()
    self._device_configs[cmd] = cfg
    return cfg

`__init__` line 263 assigns `self._device_config` (no trailing `s`) and
nothing ever assigns `_device_configs`, so the attribute read in the `try`
raises AttributeError — which `except KeyError` does not catch — and the
fetch-and-cache branch is unreachable on every call. -/
def Eapi.get_config (e : Eapi) (dev : Device) (flags : List String) :
    Except PErr String :=
  let _cmd := ("show running-config " ++ String.intercalate " " flags).trim
  eapiAttrError "_device_configs" (by decide)

/-- Source `Eapi.supports_sessions` lines 372-377: a cached `True` is
returned; `None` (or a cached `False`, being falsy) triggers a probe of
`show configuration sessions`, support being the absence of an `error`
object.  Returns the updated adapter alongside the answer. -/
def Eapi.supports_sessions (e : Eapi) (dev : Device) : Except PErr (Bool × Eapi) :=
  match e.session_support with
  | some true => .ok (true, e)
  | _ =>
    match Eapi.send_request e dev ["show configuration sessions"] (some "text") with
    | .error pe => .error pe
    | .ok response =>
      let support := response.error.isNone
      .ok (support, ⟨e.enable, some support, e.device_config, e.url⟩)

/-- Source `Eapi.configure` lines 379-390: builds `cmds` with
`configure terminal` prepended but then posts the bare `commands`; after the
request returns, the test `if 'error' in response` reads the bare name
`response` while the local variable is called `responses`, so the call raises
NameError — after having already issued the request. -/
def Eapi.configure (e : Eapi) (dev : Device) (commands : List String) :
    Except PErr (List JVal) × List RpcRequest :=
  let req := Eapi.send_request_req e commands (some "text")
  match Eapi.send_request e dev commands (some "text") with
  | .error pe => (.error pe, [req])
  | .ok _ => (globalNameError "response" (by decide), [req])

/-- The value `load_config` returns on the session path: the session name and
the captured diff when non-empty. -/
structure LoadResult where
  session : Option String
  diff : Option String

/-- Source `Eapi.load_config` lines 392-429.  Its first statement is
`if not supports_sessions():` — a bare name, where only the method
`Eapi.supports_sessions` exists (the fixed form would be
`self.supports_sessions()`).  Name resolution fails, so every call raises
NameError before any request is posted; the fallback delegation of line 400
(itself referencing the unbound names `configure` and `commands`), the
session open, the abort-on-error handler of lines 411-416 and the
diff/commit/abort batch of lines 418-429 are all unreachable. -/
def Eapi.load_config (e : Eapi) (dev : Device) (config : List String)
    (commit : Bool) (replace : Bool) : Except PErr LoadResult :=
  globalNameError "supports_sessions" (by decide)

/-- Result triple of one `exec_command` call on the interactive shell. -/
structure ExecResult where
  rc : Int
  out : String
  err : String

/-- The interactive-shell transport's external collaborators: `exec_command`
(inherited from `CliBase`) and `module.from_json`, which yields the decoded
value exactly when the text parses as JSON. -/
structure CliDev where
  exec : String → ExecResult
  from_json : String → Option JVal

/-- The loop body of `Cli.run_commands` (source lines 162-176). -/
def Cli.runLoop (d : CliDev) : List String → Bool → Except PErr (List JVal)
  | [], _ => .ok []
  | cmd :: rest, check_rc =>
    let r := d.exec cmd
    if check_rc && r.rc != 0 then .error (.failJson r.err)
    else
      let parsed := match d.from_json r.out with
        | some v => v
        | Option.none => .str r.out.trim
      match Cli.runLoop d rest check_rc with
      | .ok responses => .ok (parsed :: responses)
      | .error pe => .error pe

/-- Source `Cli.run_commands` lines 159-176: execute each command in turn;
with `check_rc` a non-zero rc aborts the run with the command's stderr; every
output is fed to `module.from_json`, the decoded value being kept when
parsing succeeds and the stripped raw text otherwise. -/
def Cli.run_commands (d : CliDev) (commands : List String) (check_rc : Bool) :
    Except PErr (List JVal) :=
  Cli.runLoop d commands check_rc

/-- Source `Cli.get_config` lines 141-157.  The body is

  cmd = 'show running-config ' + ' '.join(flags); cmd = cmd.strip()
  try: return _DEVICE_CONFIGS[cmd]
  except KeyError: ... exec_command, cache in _DEVICE_CONFIGS ...

`_DEVICE_CONFIGS` is defined nowhere in the module (the transcribed
`moduleGlobals` has no such entry), so the name lookup in the `try` raises
NameError, which `except KeyError` does not catch: every call fails before
reaching the device. -/
def Cli.get_config (d : CliDev) (flags : List String) : Except PErr String :=
  let _cmd := ("show running-config " ++ String.intercalate " " flags).trim
  globalNameError "_DEVICE_CONFIGS" (by decide)

/-- Source `Cli.configure` lines 196-213: the first statement
`if not check_authorization(self):` references `check_authorization` as a
bare module-level name, but only the method `Cli.check_authorization` exists,
so every call raises NameError before `configure` mode is entered. -/
def Cli.configure (d : CliDev) (commands : List String) : Except PErr LoadResult :=
  globalNameError "check_authorization" (by decide)

/-- Source `Cli.load_config` lines 215-255.  Its first statement is
`if not check_authorization(self):` — a bare name with no module-level
binding (only the method `Cli.check_authorization` exists), so every call
raises NameError at once.  The statements below it — the `os.getenv` session
switch (`os` is not even imported), the `supports_sessions(self)` and
`configure(self, commands)` calls (both also unbound bare names), the
`configure session` open, the abort-on-error of lines 241-244, the diff
capture and the commit/abort of lines 250-253 — never execute. -/
def Cli.load_config (d : CliDev) (commands : List String) (commit : Bool)
    (replace : Bool) : Except PErr LoadResult :=
  globalNameError "check_authorization" (by decide)

/-- A device endpoint that answers every request with HTTP 200, no error
object, and one result per command of the request, given by `f`. -/
def goodReply (f : String → JVal) (req : RpcRequest) : DevReply :=
  ⟨200, some ⟨Option.none, some (req.cmds.map f)⟩⟩

/-- A device endpoint that answers every request with HTTP 200 and an `error`
object. -/
def errReply (err : RpcError) : DevReply :=
  ⟨200, some ⟨some err, Option.none⟩⟩

/-- The per-command result `Eapi.run_commands` delivers against a device
described by `f` when text results carry `output` field `out c`: text
commands yield the stripped raw output, structured commands the untouched
value. -/
def goodRes (f : String → JVal) (out : String → String) (c : String) : JVal :=
  if is_text c then JVal.str (out c).trim else f c

/-- Count of format flips along a command list, starting from format `b`. -/
def transFrom (b : Bool) : List String → Nat
  | [] => 0
  | c :: rest => (if is_json c == b then 0 else 1) + transFrom (is_json c) rest

/-- Number of adjacent format transitions of a command list. -/
def transitions : List String → Nat
  | [] => 0
  | c :: rest => transFrom (is_json c) rest

/-- Pointwise, `is_text` is the boolean complement of `is_json`. -/
lemma is_text_eq_not_is_json (s : String) : is_text s = !is_json s := rfl

/-- Against a `goodReply` device, one batch flush returns exactly one result
per queued command, in order, whatever the output tag — the injected `enable`
placeholder being stripped again by `send_request`. -/
lemma sendBatchResult_good (e : Eapi) (dev : Device) (f : String → JVal)
    (hdev : ∀ req, dev req = goodReply f req) (queue : List String)
    (output : Option String) :
    Eapi.sendBatchResult e dev queue output = .ok (queue.map f) := by
  cases h : e.enable.truthy <;>
    simp [Eapi.sendBatchResult, Eapi.send_request, Eapi.send_request_req,
      Eapi.request_builder, hdev, goodReply, h]

/-- Against an `errReply` device, one batch flush fails with the device
message and code. -/
lemma sendBatchResult_err (e : Eapi) (dev : Device) (err : RpcError)
    (hdev : ∀ req, dev req = errReply err) (queue : List String)
    (output : Option String) :
    Eapi.sendBatchResult e dev queue output
      = .error (.failJsonCode err.message err.code) := by
  cases h : e.enable.truthy <;>
    simp [Eapi.sendBatchResult, Eapi.send_request, Eapi.send_request_req,
      Eapi.request_builder, hdev, errReply, h]

/-- The flush test of the batching loop fires exactly when the next command's
format differs from the pending queue's format. -/
lemma flushCond_eq (fb : Bool) (item : String) :
    ((some (fmtStr fb) == some "json" && is_text item)
      || (some (fmtStr fb) == some "text" && is_json item))
      = !(is_json item == fb) := by
  cases fb <;> cases h : is_json item <;>
    simp [fmtStr, is_text_eq_not_is_json, h]

/-- Batching-loop invariant against a `goodReply` device: starting from a
non-empty pending queue of format `fb`, the loop returns the accumulated
responses followed by one result per queued and per remaining command, in
order, and issues exactly one request plus one per remaining format flip. -/
lemma runLoop_good (e : Eapi) (dev : Device) (f : String → JVal)
    (hdev : ∀ req, dev req = goodReply f req) (rest : List String) :
    ∀ (fb : Bool) (queue : List String), queue ≠ [] →
      ∀ (responses : List JVal) (trace : List RpcRequest),
      (Eapi.runLoop e dev rest (some (fmtStr fb)) queue responses trace).1
          = .ok (responses ++ queue.map f ++ rest.map f)
      ∧ (Eapi.runLoop e dev rest (some (fmtStr fb)) queue responses trace).2.length
          = trace.length + 1 + transFrom fb rest := by
  induction rest with
  | nil =>
    intro fb queue hq responses trace
    have hqe : queue.isEmpty = false := by
      cases queue with
      | nil => exact absurd rfl hq
      | cons a l => rfl
    rw [Eapi.runLoop, hqe]
    rw [sendBatchResult_good e dev f hdev queue (some (fmtStr fb))]
    simp [transFrom]
  | cons item rest ih =>
    intro fb queue hq responses trace
    rw [Eapi.runLoop, flushCond_eq]
    cases hfl : (is_json item == fb) with
    | true =>
      have hfb : is_json item = fb := eq_of_beq hfl
      simp only [Bool.not_true, Bool.false_eq_true, if_false, hfb]
      obtain ⟨h1, h2⟩ := ih fb (queue ++ [item]) (by simp) responses trace
      refine ⟨h1.trans ?_, h2.trans ?_⟩
      · simp
      · simp [transFrom, hfb, hfl]
    | false =>
      simp only [Bool.not_false, if_true]
      rw [sendBatchResult_good e dev f hdev queue (some (fmtStr fb))]
      obtain ⟨h1, h2⟩ :=
        ih (is_json item) [item] (by simp) (responses ++ queue.map f)
          (Eapi.send_request_req e queue (some (fmtStr fb)) :: trace)
      refine ⟨h1.trans ?_, h2.trans ?_⟩
      · simp
      · simp [transFrom, hfl]
        omega

/-- Batching-loop invariant against an `errReply` device: with a non-empty
pending queue the loop fails at its very next flush, with the device message
and code, after issuing exactly one more request. -/
lemma runLoop_err (e : Eapi) (dev : Device) (err : RpcError)
    (hdev : ∀ req, dev req = errReply err) (rest : List String) :
    ∀ (output : Option String) (queue : List String), queue ≠ [] →
      ∀ (responses : List JVal) (trace : List RpcRequest),
      (Eapi.runLoop e dev rest output queue responses trace).1
          = .error (.failJsonCode err.message err.code)
      ∧ (Eapi.runLoop e dev rest output queue responses trace).2.length
          = trace.length + 1 := by
  induction rest with
  | nil =>
    intro output queue hq responses trace
    have hqe : queue.isEmpty = false := by
      cases queue with
      | nil => exact absurd rfl hq
      | cons a l => rfl
    rw [Eapi.runLoop, hqe]
    rw [sendBatchResult_err e dev err hdev queue output]
    simp
  | cons item rest ih =>
    intro output queue hq responses trace
    rw [Eapi.runLoop]
    cases hfl : ((output == some "json" && is_text item)
        || (output == some "text" && is_json item)) with
    | true =>
      simp only [if_true]
      rw [sendBatchResult_err e dev err hdev queue output]
      simp
    | false =>
      simp only [Bool.false_eq_true, if_false]
      exact ih (some (fmtStr (is_json item))) (queue ++ [item]) (by simp) responses trace

/-- First step of the batching loop: with `output` still `None` no flush can
fire, so the first command just seeds the queue and sets the format. -/
lemma runLoop_start (e : Eapi) (dev : Device) (c : String) (rest : List String) :
    Eapi.runLoop e dev (c :: rest) Option.none [] [] []
      = Eapi.runLoop e dev rest (some (fmtStr (is_json c))) [c] [] [] := by
  rw [Eapi.runLoop]
  simp

/-- Indexing an append at the length of the left part hits the next element. -/
lemma getElem_append_len {α : Type} (pre : List α) (v : α) (rest : List α) :
    (pre ++ v :: rest)[pre.length]? = some v := by
  induction pre with
  | nil => simp
  | cons a pre ih => simpa using ih

/-- Setting an append at the length of the left part replaces the next
element. -/
lemma set_append_len {α : Type} (pre : List α) (v w : α) (rest : List α) :
    (pre ++ v :: rest).set pre.length w = pre ++ w :: rest := by
  induction pre with
  | nil => rfl
  | cons a pre ih =>
    show a :: (pre ++ v :: rest).set pre.length w = a :: (pre ++ w :: rest)
    rw [ih]

/-- Field lookup on a one-field mapping. -/
lemma getItem_single (k : String) (v : JVal) :
    JVal.getItem (JVal.obj [(k, v)]) k = .ok v := by
  simp [JVal.getItem, List.lookup, beq_self_eq_true]

/-- Post-processing invariant: on a response list that is `f` of the commands
(prefixed by already-processed entries), the loop strips text results and
passes structured ones through, in place. -/
lemma postLoop_good (f : String → JVal) (out : String → String)
    (htext : ∀ c, is_text c = true → f c = JVal.obj [("output", JVal.str (out c))])
    (cmds : List String) :
    ∀ pre : List JVal,
      postLoop cmds pre.length (pre ++ cmds.map f)
        = .ok (pre ++ cmds.map (goodRes f out)) := by
  induction cmds with
  | nil => intro pre; simp [postLoop]
  | cons item rest ih =>
    intro pre
    rw [postLoop]
    cases ht : is_text item with
    | true =>
      simp only [if_true, List.map_cons]
      rw [getElem_append_len pre (f item) (rest.map f), htext item ht]
      simp only [getItem_single]
      rw [set_append_len pre (JVal.obj [("output", JVal.str (out item))])
        (JVal.str ((out item).trim)) (rest.map f)]
      have h2 := ih (pre ++ [JVal.str ((out item).trim)])
      simp only [List.length_append, List.length_cons, List.length_nil,
        List.append_assoc, List.cons_append, List.nil_append] at h2
      rw [h2]
      have hg : goodRes f out item = JVal.str ((out item).trim) := by
        simp [goodRes, ht]
      simp [hg]
    | false =>
      simp only [Bool.false_eq_true, if_false]
      rw [show (pre ++ (item :: rest).map f) = (pre ++ [f item]) ++ rest.map f from by simp]
      have := ih (pre ++ [f item])
      simp only [List.length_append, List.length_cons, List.length_nil] at this
      rw [this]
      have hj : goodRes f out item = f item := by simp [goodRes, ht]
      simp [hj]

/-- When the batching loop succeeds, `Eapi.run_commands` is the
post-processing pass on its responses, with the loop's request trace. -/
lemma run_commands_eq_ok (e : Eapi) (dev : Device) (cmds : List String)
    (responses : List JVal) (trace : List RpcRequest)
    (h : Eapi.runLoop e dev cmds Option.none [] [] [] = (.ok responses, trace)) :
    Eapi.run_commands e dev cmds = (postLoop cmds 0 responses, trace) := by
  rw [Eapi.run_commands, h]
  cases hp : postLoop cmds 0 responses <;> simp [hp]

/-- When the batching loop fails, `Eapi.run_commands` propagates its error
and trace unchanged. -/
lemma run_commands_eq_error (e : Eapi) (dev : Device) (cmds : List String)
    (pe : PErr) (trace : List RpcRequest)
    (h : Eapi.runLoop e dev cmds Option.none [] [] [] = (.error pe, trace)) :
    Eapi.run_commands e dev cmds = (.error pe, trace) := by
  rw [Eapi.run_commands, h]

/-- Result of `Eapi.run_commands` against a `goodReply` device: one result
per command, in input order — stripped raw output for text commands, the
device value untouched for structured ones. -/
lemma run_commands_good_result (e : Eapi) (dev : Device) (f : String → JVal)
    (out : String → String) (hdev : ∀ req, dev req = goodReply f req)
    (htext : ∀ c, is_text c = true → f c = JVal.obj [("output", JVal.str (out c))])
    (cmds : List String) :
    (Eapi.run_commands e dev cmds).1 = .ok (cmds.map (goodRes f out)) := by
  cases cmds with
  | nil => rfl
  | cons c rest =>
    rcases hrl : Eapi.runLoop e dev rest (some (fmtStr (is_json c))) [c] [] [] with ⟨res, trace⟩
    obtain ⟨h1, _⟩ := runLoop_good e dev f hdev rest (is_json c) [c] (by simp) [] []
    rw [hrl] at h1
    have hres : res = .ok ((c :: rest).map f) := by simpa using h1
    subst hres
    have hcomb : Eapi.runLoop e dev (c :: rest) Option.none [] [] []
        = (.ok ((c :: rest).map f), trace) := by rw [runLoop_start, hrl]
    rw [run_commands_eq_ok e dev (c :: rest) ((c :: rest).map f) trace hcomb]
    have hp := postLoop_good f out htext (c :: rest) []
    simpa using hp

/-- Request count of `Eapi.run_commands` against a `goodReply` device: zero
for empty input, one plus the number of adjacent format transitions
otherwise. -/
lemma run_commands_good_count (e : Eapi) (dev : Device) (f : String → JVal)
    (hdev : ∀ req, dev req = goodReply f req) (cmds : List String) :
    (Eapi.run_commands e dev cmds).2.length
      = if cmds.isEmpty then 0 else 1 + transitions cmds := by
  cases cmds with
  | nil => rfl
  | cons c rest =>
    rcases hrl : Eapi.runLoop e dev rest (some (fmtStr (is_json c))) [c] [] [] with ⟨res, trace⟩
    obtain ⟨h1, h2⟩ := runLoop_good e dev f hdev rest (is_json c) [c] (by simp) [] []
    rw [hrl] at h1 h2
    have hres : res = .ok ((c :: rest).map f) := by simpa using h1
    subst hres
    have hcomb : Eapi.runLoop e dev (c :: rest) Option.none [] [] []
        = (.ok ((c :: rest).map f), trace) := by rw [runLoop_start, hrl]
    rw [run_commands_eq_ok e dev (c :: rest) ((c :: rest).map f) trace hcomb]
    simp only [List.isEmpty_cons, Bool.false_eq_true, if_false]
    rw [show transitions (c :: rest) = transFrom (is_json c) rest from rfl]
    simpa using h2

/-- Every request in the trace of the batching loop either was already in the
accumulator or carries the injected `enable` command at its head (the enable
attribute being truthy). -/
lemma runLoop_trace_head (e : Eapi) (dev : Device) (he : e.enable.truthy = true)
    (rest : List String) :
    ∀ (output : Option String) (queue : List String) (responses : List JVal)
      (trace : List RpcRequest) (req : RpcRequest),
      req ∈ (Eapi.runLoop e dev rest output queue responses trace).2 →
      req ∈ trace ∨ req.cmds.head? = some "enable" := by
  have hhead : ∀ (q : List String) (o : Option String),
      (Eapi.send_request_req e q o).cmds.head? = some "enable" := by
    intro q o
    simp [Eapi.send_request_req, Eapi.request_builder, he]
  induction rest with
  | nil =>
    intro output queue responses trace req hreq
    rw [Eapi.runLoop] at hreq
    cases hq : queue.isEmpty with
    | true =>
      rw [hq] at hreq
      simp only [if_true, List.mem_reverse] at hreq
      exact Or.inl hreq
    | false =>
      rw [hq] at hreq
      simp only [Bool.false_eq_true, if_false] at hreq
      cases hsb : Eapi.sendBatchResult e dev queue output with
      | error pe =>
        rw [hsb] at hreq
        simp only [List.mem_reverse, List.mem_cons] at hreq
        rcases hreq with h | h
        · exact Or.inr (h ▸ hhead queue output)
        · exact Or.inl h
      | ok r =>
        rw [hsb] at hreq
        simp only [List.mem_reverse, List.mem_cons] at hreq
        rcases hreq with h | h
        · exact Or.inr (h ▸ hhead queue output)
        · exact Or.inl h
  | cons item rest ih =>
    intro output queue responses trace req hreq
    rw [Eapi.runLoop] at hreq
    cases hfl : ((output == some "json" && is_text item)
        || (output == some "text" && is_json item)) with
    | false =>
      rw [hfl] at hreq
      simp only [Bool.false_eq_true, if_false] at hreq
      exact ih (some (fmtStr (is_json item))) (queue ++ [item]) responses trace req hreq
    | true =>
      rw [hfl] at hreq
      simp only [if_true] at hreq
      cases hsb : Eapi.sendBatchResult e dev queue output with
      | error pe =>
        rw [hsb] at hreq
        simp only [List.mem_reverse, List.mem_cons] at hreq
        rcases hreq with h | h
        · exact Or.inr (h ▸ hhead queue output)
        · exact Or.inl h
      | ok r =>
        rw [hsb] at hreq
        have := ih (some (fmtStr (is_json item))) [item] (responses ++ r)
          (Eapi.send_request_req e queue output :: trace) req hreq
        rcases this with h | h
        · rcases List.mem_cons.mp h with h' | h'
          · exact Or.inr (h' ▸ hhead queue output)
          · exact Or.inl h'
        · exact Or.inr h

/-- Initialization always leaves `_enable` truthy: the credential dict when
`auth_pass` is set and non-empty, the non-empty string marker otherwise. -/
lemma init_enable_truthy (params : ModuleParams) :
    (Eapi.init params).enable.truthy = true := by
  cases hap : params.auth_pass with
  | none => simp [Eapi.init, hap, EnableAttr.truthy]
  | some s =>
    cases hs : (s == "") <;> simp [Eapi.init, hap, hs, EnableAttr.truthy]

/-- The request trace of `Eapi.run_commands` is exactly that of its batching
loop: the post-processing pass issues no request. -/
lemma run_commands_trace (e : Eapi) (dev : Device) (cmds : List String) :
    (Eapi.run_commands e dev cmds).2
      = (Eapi.runLoop e dev cmds Option.none [] [] []).2 := by
  rcases hrl : Eapi.runLoop e dev cmds Option.none [] [] [] with ⟨res, trace⟩
  cases res with
  | error pe => rw [run_commands_eq_error e dev cmds pe trace hrl]
  | ok r => rw [run_commands_eq_ok e dev cmds r trace hrl]

/-- The per-command result of `Cli.run_commands`: the decoded JSON value when
`module.from_json` succeeds on the raw output, the stripped raw output
otherwise (source lines 170-173). -/
def cliRes (d : CliDev) (c : String) : JVal :=
  match d.from_json (d.exec c).out with
  | some v => v
  | Option.none => JVal.str ((d.exec c).out.trim)

/-- Running `Cli.runLoop` on commands that all exit with rc 0 returns one `cliRes`
per command, in order. -/
lemma cliRunLoop_ok (d : CliDev) : ∀ (cmds : List String),
    (∀ c ∈ cmds, (d.exec c).rc = 0) →
    Cli.runLoop d cmds true = .ok (cmds.map (cliRes d))
  | [], _ => rfl
  | c :: rest, hok => by
    have h0 : (d.exec c).rc = 0 := hok c (List.mem_cons_self c rest)
    have ihr := cliRunLoop_ok d rest (fun x hx => hok x (List.mem_cons_of_mem c hx))
    rw [Cli.runLoop, h0]
    simp only [ihr]
    simp [cliRes]

/-- Sample device-value map: every command yields a text-shaped result whose
`output` field is padded with surrounding whitespace. -/
def wF : String → JVal :=
  fun c => JVal.obj [("output", JVal.str ("  ran " ++ c ++ "  "))]

/-- The raw outputs behind `wF`. -/
def wOut : String → String := fun c => "  ran " ++ c ++ "  "

/-- A well-behaved sample eAPI endpoint. -/
def wGoodDev : Device := fun req => goodReply wF req

/-- A sample device-reported error. -/
def wErr : RpcError := ⟨1002, "CLI command 2 of 2 failed: invalid command"⟩

/-- A sample eAPI endpoint that rejects every request. -/
def wErrDev : Device := fun _ => errReply wErr

/-- Sample connection parameters with an enable-credential configured. -/
def wParams : ModuleParams :=
  ⟨"192.0.2.1", some 8080, "admin", "pw", some "secret", false, some 10⟩

/-- Sample connection parameters with NO enable-credential configured. -/
def wParamsNoAuth : ModuleParams :=
  ⟨"192.0.2.1", Option.none, "admin", "pw", Option.none, false, some 10⟩

/-- Sample adapter with an enable-credential. -/
def wEapi : Eapi := Eapi.init wParams

/-- Sample adapter without an enable-credential. -/
def wEapiNoAuth : Eapi := Eapi.init wParamsNoAuth

/-- The spec's example command sequence: text, structured, text. -/
def wCmds : List String :=
  ["show version", "show interfaces | json", "show version"]

/-- A sample interactive shell: every command exits 0; the output of
`show version` parses as JSON, other outputs do not. -/
def wCliDev : CliDev :=
  ⟨fun c => ⟨0, "ran " ++ c, ""⟩,
   fun s => if s == "ran show version"
            then some (JVal.obj [("version", JVal.str "4.15.0F")])
            else Option.none⟩

/-- C1: for every command sequence given to the RPC Response Batcher
(`Eapi.run_commands`), against a device answering every request with one
result per command, the result sequence is the input sequence mapped in
order (batching preserves input order), the number of underlying requests
issued equals 1 plus the number of adjacent format transitions for non-empty
input, and an empty command sequence produces an empty result sequence and
issues zero requests. -/
theorem C1_batcher_order_and_request_count (e : Eapi) (dev : Device)
    (f : String → JVal) (out : String → String)
    (hdev : ∀ req, dev req = goodReply f req)
    (htext : ∀ c, is_text c = true → f c = JVal.obj [("output", JVal.str (out c))])
    (cmds : List String) :
    (Eapi.run_commands e dev cmds).1 = .ok (cmds.map (goodRes f out))
    ∧ (cmds ≠ [] → (Eapi.run_commands e dev cmds).2.length = 1 + transitions cmds)
    ∧ (Eapi.run_commands e dev []).1 = .ok []
    ∧ (Eapi.run_commands e dev []).2 = [] := by
  refine ⟨run_commands_good_result e dev f out hdev htext cmds, ?_, rfl, rfl⟩
  intro hne
  rw [run_commands_good_count e dev f hdev cmds]
  have hie : cmds.isEmpty = false := by
    cases cmds with
    | nil => exact absurd rfl hne
    | cons a l => rfl
  rw [hie]
  simp

/-- C1 witness: the theorem at the spec's three-command example against
concrete sample fixtures. -/
theorem C1_witness :
    (Eapi.run_commands wEapi wGoodDev wCmds).1 = .ok (wCmds.map (goodRes wF wOut))
    ∧ (wCmds ≠ [] → (Eapi.run_commands wEapi wGoodDev wCmds).2.length
        = 1 + transitions wCmds)
    ∧ (Eapi.run_commands wEapi wGoodDev []).1 = .ok []
    ∧ (Eapi.run_commands wEapi wGoodDev []).2 = [] :=
  C1_batcher_order_and_request_count wEapi wGoodDev wF wOut
    (fun _ => rfl) (fun _ _ => rfl) wCmds

/-- C2 (code bug): `Cli.load_config` (line 218) calls the bare name
`check_authorization` and `Eapi.load_config` (line 399) the bare name
`supports_sessions`; neither is bound at module level, so every call —
here one whose commands the device would reject — raises NameError before
any session is opened, so the abort-and-report handlers of lines 241-244 and
411-416 can never run. -/
theorem C2_load_config_name_error_before_abort :
    Cli.load_config wCliDev ["hostname foo"] true false
        = .error (.nameError "check_authorization")
    ∧ Eapi.load_config wEapi wErrDev ["hostname foo"] true false
        = .error (.nameError "supports_sessions") :=
  ⟨rfl, rfl⟩

/-- C3 (code bug): a `load_config` call with commit=false raises the same
NameError at once, so the abort-but-return-diff path of lines 246-253 and
418-429 is unreachable. -/
theorem C3_commit_false_abort_path_unreachable :
    Cli.load_config wCliDev ["interface Eth1", "description test"] false false
        = .error (.nameError "check_authorization")
    ∧ Eapi.load_config wEapi wGoodDev ["interface Eth1", "description test"] false false
        = .error (.nameError "supports_sessions") :=
  ⟨rfl, rfl⟩

/-- C4 (code bug): on a fresh adapter against a device that would report no
session support, `load_config` still raises NameError before the support
check, so the fallback delegation to `configure` never happens; and the
delegation target `Eapi.configure` itself posts its request and then raises
NameError on the unbound name `response`. -/
theorem C4_session_fallback_unreachable :
    Cli.load_config wCliDev ["hostname foo"] true false
        = .error (.nameError "check_authorization")
    ∧ Eapi.load_config wEapiNoAuth wErrDev ["hostname foo"] true false
        = .error (.nameError "supports_sessions")
    ∧ Eapi.configure wEapiNoAuth wErrDev ["hostname foo"]
        = (.error (.nameError "response"),
           [Eapi.send_request_req wEapiNoAuth ["hostname foo"] (some "text")]) :=
  ⟨rfl, rfl, rfl⟩

/-- C5: if the device answers requests with an error object, the whole
`run_commands` operation fails immediately with the device-reported message
and code — the `Except` result carries no partial results — and exactly one
request was issued. -/
theorem C5_device_error_fails_whole_run (e : Eapi) (dev : Device) (err : RpcError)
    (hdev : ∀ req, dev req = errReply err) (cmds : List String) (hne : cmds ≠ []) :
    (Eapi.run_commands e dev cmds).1 = .error (.failJsonCode err.message err.code)
    ∧ (Eapi.run_commands e dev cmds).2.length = 1 := by
  cases cmds with
  | nil => exact absurd rfl hne
  | cons c rest =>
    rcases hrl : Eapi.runLoop e dev rest (some (fmtStr (is_json c))) [c] [] []
      with ⟨res, trace⟩
    obtain ⟨h1, h2⟩ := runLoop_err e dev err hdev rest
      (some (fmtStr (is_json c))) [c] (by simp) [] []
    rw [hrl] at h1 h2
    have hres : res = .error (.failJsonCode err.message err.code) := by simpa using h1
    subst hres
    have hcomb : Eapi.runLoop e dev (c :: rest) Option.none [] [] []
        = (.error (.failJsonCode err.message err.code), trace) := by
      rw [runLoop_start, hrl]
    rw [run_commands_eq_error e dev (c :: rest) _ trace hcomb]
    exact ⟨rfl, by simpa using h2⟩

/-- C5 witness: the theorem at a concrete two-command input against the
rejecting sample endpoint. -/
theorem C5_witness :
    (Eapi.run_commands wEapi wErrDev ["show version", "show hostname"]).1
        = .error (.failJsonCode wErr.message wErr.code)
    ∧ (Eapi.run_commands wEapi wErrDev ["show version", "show hostname"]).2.length = 1 :=
  C5_device_error_fails_whole_run wEapi wErrDev wErr (fun _ => rfl)
    ["show version", "show hostname"] (by decide)

/-- C6: for every position of the command list, the batcher's result is the
raw output string unwrapped from its result mapping and trimmed of
surrounding whitespace when the command is tagged text, and the device value
passed through unmodified when it is tagged structured. -/
theorem C6_text_stripped_json_passthrough (e : Eapi) (dev : Device)
    (f : String → JVal) (out : String → String)
    (hdev : ∀ req, dev req = goodReply f req)
    (htext : ∀ c, is_text c = true → f c = JVal.obj [("output", JVal.str (out c))])
    (cmds : List String) (i : Nat) (hi : i < cmds.length) :
    ∃ rs, (Eapi.run_commands e dev cmds).1 = .ok rs
      ∧ rs[i]? = some (if is_text cmds[i] then JVal.str ((out cmds[i]).trim)
                       else f cmds[i]) := by
  refine ⟨cmds.map (goodRes f out),
    run_commands_good_result e dev f out hdev htext cmds, ?_⟩
  rw [List.getElem?_map, List.getElem?_eq_getElem hi]
  rfl

/-- C6 witness: the theorem at position 1 (the structured command) of the
spec's example sequence. -/
theorem C6_witness :
    ∃ rs, (Eapi.run_commands wEapi wGoodDev wCmds).1 = .ok rs
      ∧ rs[1]? = some (if is_text (wCmds.get ⟨1, by decide⟩)
                       then JVal.str ((wOut (wCmds.get ⟨1, by decide⟩)).trim)
                       else wF (wCmds.get ⟨1, by decide⟩)) :=
  C6_text_stripped_json_passthrough wEapi wGoodDev wF wOut
    (fun _ => rfl) (fun _ _ => rfl) wCmds 1 (by decide)

/-- C7: the Command Classifier marks a command structured exactly when its
character sequence carries the trailing marker `| json` (some prefix followed
by those six characters), and `is_text` is the exact boolean complement of
`is_json`. -/
theorem C7_classifier_trailing_marker (s : String) :
    (is_json s = true ↔ ∃ t : List Char, s.data = t ++ "| json".data)
    ∧ is_text s = !is_json s := by
  constructor
  · rw [show is_json s = ("| json".data.isSuffixOf s.data) from rfl,
      List.isSuffixOf_iff_suffix]
    constructor
    · rintro ⟨t, ht⟩
      exact ⟨t, ht.symm⟩
    · rintro ⟨t, ht⟩
      exact ⟨t, ht.symm⟩
  · rfl

/-- C8 (code bug): `get_config` crashes on every call instead of fetching
and caching: `Cli.get_config` reads the module global `_DEVICE_CONFIGS`,
which is never defined (NameError), and `Eapi.get_config` reads the instance
attribute `_device_configs` while `__init__` assigns `_device_config`
(AttributeError); `except KeyError` catches neither, so no call — first or
repeated, with any flag-set — ever returns a configuration. -/
theorem C8_get_config_cache_broken :
    Cli.get_config wCliDev [] = .error (.nameError "_DEVICE_CONFIGS")
    ∧ Eapi.get_config wEapi wGoodDev [] = .error (.attributeError "_device_configs")
    ∧ Eapi.get_config wEapi wGoodDev ["all"]
        = .error (.attributeError "_device_configs") :=
  ⟨rfl, rfl, rfl⟩

/-- C9 counterexample: with no enable-credential configured (`auth_pass` is
None), the adapter still injects the `enable` pseudo-command ahead of the
batch — both in the request builder and in the single request
`run_commands` issues — falsifying "injected exactly when an
enable-credential is configured". -/
theorem C9_counterexample_enable_without_credential :
    wParamsNoAuth.auth_pass = Option.none
    ∧ (Eapi.send_request_req wEapiNoAuth ["show version"] (some "text")).cmds
        = ["enable", "show version"]
    ∧ (Eapi.run_commands wEapiNoAuth wGoodDev ["show version"]).2.map RpcRequest.cmds
        = [["enable", "show version"]] :=
  ⟨rfl, rfl, rfl⟩

/-- C9 amended: the `enable` pseudo-command is injected ahead of every batch
unconditionally — `__init__` always leaves `_enable` truthy, whether or not
an enable-credential is configured — and the placeholder result is stripped
from every successful response, so callers receive exactly one result per
command they submitted. -/
theorem C9_enable_always_injected_amended (params : ModuleParams) (dev : Device)
    (f : String → JVal) (out : String → String)
    (hdev : ∀ req, dev req = goodReply f req)
    (htext : ∀ c, is_text c = true → f c = JVal.obj [("output", JVal.str (out c))])
    (cmds : List String) :
    (Eapi.init params).enable.truthy = true
    ∧ (∀ req ∈ (Eapi.run_commands (Eapi.init params) dev cmds).2,
        req.cmds.head? = some "enable")
    ∧ ∃ rs, (Eapi.run_commands (Eapi.init params) dev cmds).1 = .ok rs
        ∧ rs.length = cmds.length := by
  refine ⟨init_enable_truthy params, ?_, ?_⟩
  · intro req hreq
    rw [run_commands_trace] at hreq
    rcases runLoop_trace_head (Eapi.init params) dev (init_enable_truthy params)
      cmds Option.none [] [] [] req hreq with h | h
    · exact absurd h (List.not_mem_nil req)
    · exact h
  · exact ⟨cmds.map (goodRes f out),
      run_commands_good_result (Eapi.init params) dev f out hdev htext cmds,
      by simp⟩

/-- C9 witness: the amended theorem at the credential-less sample parameters
and the spec's example command sequence. -/
theorem C9_witness :
    (Eapi.init wParamsNoAuth).enable.truthy = true
    ∧ (∀ req ∈ (Eapi.run_commands (Eapi.init wParamsNoAuth) wGoodDev wCmds).2,
        req.cmds.head? = some "enable")
    ∧ ∃ rs, (Eapi.run_commands (Eapi.init wParamsNoAuth) wGoodDev wCmds).1 = .ok rs
        ∧ rs.length = wCmds.length :=
  C9_enable_always_injected_amended wParamsNoAuth wGoodDev wF wOut
    (fun _ => rfl) (fun _ _ => rfl) wCmds

/-- C10: on the interactive-shell transport, `run_commands` feeds every
command's output to the JSON decoder whatever its format marker: when the
output parses, the structured value is returned (`cliRes` keeps the decoded
value), otherwise the output is returned as a whitespace-trimmed string. -/
theorem C10_cli_parse_regardless_of_marker (d : CliDev) (cmds : List String)
    (hok : ∀ c ∈ cmds, (d.exec c).rc = 0) :
    Cli.run_commands d cmds true = .ok (cmds.map (cliRes d)) :=
  cliRunLoop_ok d cmds hok

/-- C10 witness: the theorem on two unmarked commands against the sample
shell, where the first command's output parses as JSON and the second's does
not. -/
theorem C10_witness :
    Cli.run_commands wCliDev ["show version", "show hostname"] true
      = .ok (["show version", "show hostname"].map (cliRes wCliDev)) :=
  C10_cli_parse_regardless_of_marker wCliDev ["show version", "show hostname"]
    (fun _ _ => rfl)
